import Mathlib

/-!
Verification of the depinject repository: a periodic-work stream built from a
heartbeat (pulse) source, a pluggable work function, and a stream engine that
forwards work results on an output channel until cancelled.

The Go code is shallowly embedded as follows.

* `time.Duration` is an `Int` counting nanoseconds.
* Channels are identified by `Nat` ids where only identity matters (which
  pulse source an engine resolved to); `Option Chan` models a possibly-nil
  channel reference, `Option config` a possibly-nil interface value.
* The concurrent composition of the `Beatn` pulse generator, the engine's
  serve/worker goroutine and the downstream consumer is embedded as a
  deterministic small-step machine parameterised by boolean oracles that
  resolve the genuine nondeterminism of Go `select` (which ready case wins a
  race) and of the environment (is the producer / consumer ready at this
  scheduler step).  Go channel semantics are reflected faithfully: an
  unbuffered send is a rendezvous, and a receive from a closed channel
  succeeds immediately with the zero value.
-/

namespace Depinject

/-- Go `time.Duration`: an int64 count of nanoseconds. -/
abbrev Duration := Int

/-- One nanosecond times 10^6, so `250 * millisecond` is Go `250 * time.Millisecond`. -/
def millisecond : Duration := 1000000

/-- Channel identity: only which channel a reference denotes matters for the
dependency-resolution claims, so channels are `Nat` ids. -/
abbrev Chan := Nat

/-! Namespace for the `config` package variant exposing `PulseWidth`
(`src/heartbeat/heartbeat.go`, second document: `newConfig`, `WithPulseWidth`,
`NewConfig`, `PulseWidth`). -/
namespace ConfigW

/-- Go `type config struct { d time.Duration }`. -/
structure config where
  d : Duration
deriving DecidableEq

/-- Go `newConfig`: the default config holding `250 * time.Millisecond`. -/
def newConfig : config := { d := 250 * millisecond }

/-- Go `WithPulseWidth(d)`: a functional option setting the duration. -/
def WithPulseWidth (d : Duration) : config → config :=
  fun cfg => { cfg with d := d }

/-- Go `NewConfig(opts...)`: apply each option to the default config, then
return a fresh config copying the resulting duration. -/
def NewConfig (opts : List (config → config)) : config :=
  let cfg := opts.foldl (fun c f => f c) newConfig
  { d := cfg.d }

/-- Go `(c *config) PulseWidth()`. -/
def PulseWidth (c : config) : Duration := c.d

end ConfigW

/-! Namespace for the `config` package variant exposing `PulseInterval`
(`src/heartbeat/heartbeat.go`, third document: `newDefaultConfig`,
`WithPulseInterval`, `NewConfig`, `PulseInterval`). -/
namespace ConfigI

/-- Go `type config struct { d time.Duration }`. -/
structure config where
  d : Duration
deriving DecidableEq

/-- Go `newDefaultConfig`: the default config holding `250 * time.Millisecond`. -/
def newDefaultConfig : config := { d := 250 * millisecond }

/-- Go `WithPulseInterval(d)`: a functional option setting the duration. -/
def WithPulseInterval (d : Duration) : config → config :=
  fun cfg => { cfg with d := d }

/-- Go `NewConfig(opts...)`: apply each option to the default config, then
return a fresh config copying the resulting duration. -/
def NewConfig (opts : List (config → config)) : config :=
  let cfg := opts.foldl (fun c f => f c) newDefaultConfig
  { d := cfg.d }

/-- Go `(c *config) PulseInterval()`. -/
def PulseInterval (c : config) : Duration := c.d

end ConfigI

/-- One invocation of a Go work function returns `(T, error)`; here
`Int × Option String` with `none` for a nil error. -/
abbrev WorkResult := Int × Option String

/-- Record of a call `heartbeat.BeatUntil(stop, r.PulseWidth())` made by an
engine's just-in-time resolution: the stop channel and the pulse width the
created source is bound to, and the fresh channel id allocated for it.
`width` is the value of the promoted `PulseWidth` method of the embedded
config interface: `some (PulseWidth cfg)` when the engine holds a config,
`none` when the config is nil (where the Go method call would fault on the
nil interface). -/
structure BeatUntilCall where
  stop : Chan
  width : Option Duration
  ch : Chan
deriving DecidableEq

/-! Namespace for `src/worker/v7/worker.go`: the `worker[T]` interface and its
two implementations. -/
namespace V7

/-- Go `func (r randInt) work() (int, error) { return rand.Int(), nil }`.
The draw from the `math/rand` global generator is abstracted as the input
`r`; the method wraps it with a nil error. -/
def randInt.work (r : Int) : WorkResult := (r, none)

/-- Go `func (o ones) work() (int, error) { return 1, nil }`. -/
def ones.work : WorkResult := (1, none)

/-- Tag naming which `worker[T]` implementation a `resultStream` holds. -/
inductive WorkerTag
  | randIntTag
  | onesTag
deriving DecidableEq

end V7

/-! Namespace for `src/worker/v6/worker.go`: `randIntStream`, its two
constructors and `getHeartbeat`. -/
namespace V6

/-- Go `type randIntStream struct { config; hb <-chan heartbeat.Beat }`:
a possibly-nil embedded config interface and a possibly-nil channel. -/
structure randIntStream where
  cfg : Option ConfigW.config
  hb : Option Chan
deriving DecidableEq

/-- Go `NewRandIntStreamf(hb)`: errors on a nil channel, otherwise stores the
given channel (and no config). -/
def NewRandIntStreamf (hb : Option Chan) : Except String randIntStream :=
  match hb with
  | none => .error "cannot provide a nil channel to constructor"
  | some c => .ok { cfg := none, hb := some c }

/-- Go `NewRandIntStream(cfg)`: errors on a nil config, otherwise stores the
given config (and no channel). -/
def NewRandIntStream (cfg : Option ConfigW.config) : Except String randIntStream :=
  match cfg with
  | none => .error "cannot provide a nil config to constructor"
  | some c => .ok { cfg := some c, hb := none }

/-- Go `(r *randIntStream) getHeartbeat(stop)`: if `r.hb == nil`, assign
`r.hb = heartbeat.BeatUntil(stop, r.PulseWidth())` and return it; otherwise
return the stored channel.  Allocation of the new `BeatUntil` channel is
modelled by consuming the fresh channel id `fresh`; the result is the
channel returned, the updated receiver, the next fresh id, and the
`BeatUntil` call made at this resolution, if any — recording the `stop`
signal and the `r.PulseWidth()` duration the created source is bound to. -/
def getHeartbeat (r : randIntStream) (stop : Chan) (fresh : Chan) :
    Chan × randIntStream × Chan × Option BeatUntilCall :=
  match r.hb with
  | some c => (c, r, fresh, none)
  | none =>
    (fresh, { r with hb := some fresh }, fresh + 1,
      some { stop := stop, width := r.cfg.map ConfigW.PulseWidth, ch := fresh })

end V6

/-! Namespace for `src/worker/v7` (`src/unnamed/part_000`): `resultStream`,
its constructors and `getHeartbeat`; identical wiring to v6 plus a stored
`worker[T]` implementation. -/
namespace V7

/-- Go `type resultStream[T int] struct { config; hb <-chan heartbeat.Beat; worker[T] }`. -/
structure resultStream where
  cfg : Option ConfigW.config
  hb : Option Chan
  wk : WorkerTag
deriving DecidableEq

/-- Go `NewResultStreamf(hb)`: errors on a nil channel, otherwise stores the
channel and the `randInt{}` worker. -/
def NewResultStreamf (hb : Option Chan) : Except String resultStream :=
  match hb with
  | none => .error "cannot provide a nil channel to constructor"
  | some c => .ok { cfg := none, hb := some c, wk := .randIntTag }

/-- Go `NewResultStream(cfg)`: errors on a nil config, otherwise stores the
config and the `randInt{}` worker. -/
def NewResultStream (cfg : Option ConfigW.config) : Except String resultStream :=
  match cfg with
  | none => .error "cannot provide a nil config to constructor"
  | some c => .ok { cfg := some c, hb := none, wk := .randIntTag }

/-- Go `(r *resultStream[int]) getHeartbeat(stop)`: same just-in-time
resolution as v6 — on first use it assigns and stores
`heartbeat.BeatUntil(stop, r.PulseWidth())`, recorded as a `BeatUntilCall`
binding the created source to `stop` and to the configured width. -/
def getHeartbeat (r : resultStream) (stop : Chan) (fresh : Chan) :
    Chan × resultStream × Chan × Option BeatUntilCall :=
  match r.hb with
  | some c => (c, r, fresh, none)
  | none =>
    (fresh, { r with hb := some fresh }, fresh + 1,
      some { stop := stop, width := r.cfg.map ConfigW.PulseWidth, ch := fresh })

end V7

/-! Namespace for `src/worker/v4/worker.go`, first document: the lowercase
`randIntStream` with the functional-options constructor and the
non-storing `getHeartbeat`. -/
namespace V4

/-- The `option` struct holding the optional ticker channel; the default
(`newOption`) leaves it nil, mirroring `src/worker/v5/options.go`. -/
structure option where
  ticker : Option Chan
deriving DecidableEq

/-- The zero-valued option: nil ticker. -/
def newOption : option := { ticker := none }

/-- Go `WithHeartbeat(hb)`: a functional option setting the ticker channel
(as invoked by `src/worker/v4/worker_test.go`). -/
def WithHeartbeat (hb : Chan) : option → option :=
  fun o => { o with ticker := some hb }

/-- Go `type randIntStream struct { config; pulse <-chan heartbeat.Beat }`. -/
structure randIntStream where
  cfg : Option ConfigW.config
  pulse : Option Chan
deriving DecidableEq

/-- Go `NewRandIntStream(cfg, opts...)`: fold the options over `newOption`,
build the stream, then fail iff both the config and the pulse are nil. -/
def NewRandIntStream (cfg : Option ConfigW.config) (opts : List (option → option)) :
    Except String randIntStream :=
  let o := opts.foldl (fun acc f => f acc) newOption
  let ris : randIntStream := { cfg := cfg, pulse := o.ticker }
  if ris.cfg = none ∧ ris.pulse = none then
    .error "must provide either a config or a ticker"
  else
    .ok ris

/-- Go `(r *randIntStream) getHeartbeat(stop)` of v4: if `r.pulse == nil`,
`return heartbeat.BeatUntil(stop, r.PulseWidth())` — the created channel is
returned but NOT assigned to `r.pulse`; otherwise return the stored channel.
Same fresh-id and `BeatUntilCall` conventions as `V6.getHeartbeat`: a
created source is bound to `stop` and to `r.PulseWidth()`. -/
def getHeartbeat (r : randIntStream) (stop : Chan) (fresh : Chan) :
    Chan × randIntStream × Chan × Option BeatUntilCall :=
  match r.pulse with
  | some c => (c, r, fresh, none)
  | none =>
    (fresh, r, fresh + 1,
      some { stop := stop, width := r.cfg.map ConfigW.PulseWidth, ch := fresh })

end V4

/-! Namespace for `src/worker/v4/worker.go`, second document: the uppercase
`RandIntStream` with `getDuration` and `getTicker`. -/
namespace V4Main

/-- Go `(r *RandIntStream) getDuration()`: a zero configured `PulseInterval`
falls back to `100 * time.Millisecond`, otherwise the configured value is
used literally. -/
def getDuration (cfg : ConfigI.config) : Duration :=
  if ConfigI.PulseInterval cfg = 0 then 100 * millisecond else ConfigI.PulseInterval cfg

/-- Go `(r *RandIntStream) getTicker(stop)`: when `r.ticker == nil` it creates
`getHeartbeat(stop, r.getDuration())`.  Modelled as the duration bound to the
pulse source the call creates: `none` when an explicit ticker is present (no
source is created), `some (getDuration cfg)` when one is created. -/
def getTickerDuration (ticker : Option Chan) (cfg : ConfigI.config) : Option Duration :=
  match ticker with
  | some _ => none
  | none => some (getDuration cfg)

end V4Main

/-! Namespace for `src/heartbeat/heartbeat.go`, first document: the `Beatn`
and `BeatUntil` pulse generators. -/
namespace Heartbeat

/-- Observable events of the `Beatn` goroutine, in order: a rendezvous
delivery of one `Beat`, the close of the pulse channel, the close of the
done channel. -/
inductive BeatnEv
  | beat
  | closeHb
  | closeDone
deriving DecidableEq

/-- Event trace of Go `Beatn(n)`'s goroutine: the loop body `hb <- Beat{}`
runs `n` times (each send a rendezvous, with no timer involved), then the
function returns and the deferred closes run in LIFO order — `close(hb)`
(registered second) before `close(done)` (registered first). -/
def beatnTrace : Nat → List BeatnEv
  | 0 => [.closeHb, .closeDone]
  | n + 1 => .beat :: beatnTrace n

/-- Control state of the `BeatUntil` goroutine: blocked at the
`select {stop, time.After(d)}`, blocked at the unguarded send `hb <- Beat{}`
after the timer fired, or returned (with `hb` closed by the deferred close). -/
inductive BUPhase
  | waiting
  | sending
  | closed
deriving DecidableEq

/-- State of the `BeatUntil` goroutine: its control point, the number of
Beats delivered so far, and whether the returned channel has been closed. -/
structure BUState where
  phase : BUPhase
  beats : Nat
  hbClosed : Bool
deriving DecidableEq

/-- Initial `BeatUntil` state: at the top of the loop, nothing delivered. -/
def buInit : BUState := { phase := .waiting, beats := 0, hbClosed := false }

/-- One scheduler step of the `BeatUntil` goroutine.  Oracle inputs for this
step: `st` — the stop channel is closed (ready); `τ` — the `time.After(d)`
timer has fired (ready); `σ` — when both select cases are ready, the Go
runtime's random choice picks the stop case; `ρ` — the consumer is ready to
receive from `hb`.  At the select, the stop case is taken when stop is ready
and either it wins the race or the timer is not ready; the timer case moves
to the send, which is unguarded: it completes only when the consumer is
ready, and never observes stop. -/
def buStep (st τ σ ρ : Bool) (s : BUState) : BUState :=
  match s.phase with
  | .closed => s
  | .waiting =>
    if st && (σ || !τ) then { s with phase := .closed, hbClosed := true }
    else if τ then { s with phase := .sending }
    else s
  | .sending =>
    if ρ then { s with phase := .waiting, beats := s.beats + 1 }
    else s

/-- Run the `BeatUntil` goroutine for a number of scheduler steps under
step-indexed oracles. -/
def buRun (st τ σ ρ : Nat → Bool) : Nat → BUState
  | 0 => buInit
  | i + 1 => buStep (st i) (τ i) (σ i) (ρ i) (buRun st τ σ ρ i)

end Heartbeat

/-! The composed system: a `Beatn n` pulse source feeding the serve/worker
goroutine of `src/unnamed/part_000` (v7 `serve`; v6's `worker` is the same
loop with `doWork` in place of `r.work`), with a downstream consumer.  Go
channel semantics: the pulse channel is ready when the producer is blocked
at its send (beats remain) or when it has been closed (a receive from a
closed channel succeeds immediately with the zero value); the engine's two
selects race `stop` against the other ready case. -/
namespace Engine

/-- Control state of the serve goroutine: blocked at the outer
`select {stop, heartbeat}`; holding a computed work value at the inner
`select {values <- val, stop}` (remembering whether the triggering receive
was a real pulse or a zero value from the closed pulse channel); or
returned, with the output channel closed by the deferred close. -/
inductive Phase
  | selecting
  | sending (v : Int) (fromBeat : Bool)
  | done
deriving DecidableEq

/-- State of the composed system: beats the `Beatn` producer has yet to
send (the pulse channel is closed once this reaches zero), the engine's
control point, the results delivered to the consumer in order, parallel
tags recording whether each result was triggered by a real pulse, whether
the output channel is closed, and the number of work invocations so far. -/
structure EngineState where
  beatsLeft : Nat
  phase : Phase
  out : List Int
  tags : List Bool
  outClosed : Bool
  works : Nat
deriving DecidableEq

/-- Initial state for an engine wired to the pulse channel of `Beatn n`. -/
def initState (n : Nat) : EngineState :=
  { beatsLeft := n, phase := .selecting, out := [], tags := [], outClosed := false, works := 0 }

/-- One scheduler step of the serve goroutine.  Oracle inputs for this step:
`st` — the stop channel is closed (cancellation has fired); `σ` — when stop
races another ready case, the runtime's random select choice picks stop;
`η` — the `Beatn` producer is scheduled at its send (only relevant while
beats remain: once the pulse channel is closed it is always ready); `ρ` —
the downstream consumer is ready to receive.  On the heartbeat case the
engine invokes the work function (`val, _ := r.work()`, the error being
discarded) and moves to the inner select; on a stop case it returns and the
deferred `close(values)` runs. -/
def step (w : Nat → WorkResult) (st σ η ρ : Bool) (s : EngineState) : EngineState :=
  match s.phase with
  | .done => s
  | .selecting =>
    let hbReady : Bool := (s.beatsLeft == 0) || η
    if st && (σ || !hbReady) then
      { s with phase := .done, outClosed := true }
    else if hbReady then
      { s with beatsLeft := s.beatsLeft - 1,
               phase := .sending (w s.works).1 (decide (0 < s.beatsLeft)),
               works := s.works + 1 }
    else s
  | .sending v fb =>
    if st && (σ || !ρ) then
      { s with phase := .done, outClosed := true }
    else if ρ then
      { s with phase := .selecting, out := s.out ++ [v], tags := s.tags ++ [fb] }
    else s

/-- Run the composed system for a number of scheduler steps under
step-indexed oracles, starting from `initState n`. -/
def run (w : Nat → WorkResult) (st σ η ρ : Nat → Bool) (n : Nat) : Nat → EngineState
  | 0 => initState n
  | fuel + 1 => step w (st fuel) (σ fuel) (η fuel) (ρ fuel) (run w st σ η ρ n fuel)

/-- The constantly-true oracle. -/
def alwaysT : Nat → Bool := fun _ => true

/-- The constantly-false oracle. -/
def alwaysF : Nat → Bool := fun _ => false

/-- The canonical schedule: cancellation never fires, the producer and the
consumer are always ready. -/
def runCanonical (w : Nat → WorkResult) (n fuel : Nat) : EngineState :=
  run w alwaysF alwaysF alwaysT alwaysT n fuel

/-- The `ones{}` work function lifted to an invocation-indexed work
function: every call returns `(1, nil)`. -/
def onesW : Nat → WorkResult := fun _ => V7.ones.work

end Engine

/-! # Helper lemmas -/

namespace Engine

/-- Closed form of the canonical run: with cancellation never firing and
producer and consumer always ready, each pair of scheduler steps completes
one loop iteration (receive, work, deliver), so after `2 * k` steps the
engine has delivered the first `k` work values in order, the `j`-th of them
triggered by a real pulse exactly when `j < n`, with `n - k` beats still
unsent and the output channel open. -/
theorem runCanonical_closed_form (w : Nat → WorkResult) (n k : Nat) :
    runCanonical w n (2 * k) =
      { beatsLeft := n - k
        phase := .selecting
        out := (List.range k).map fun j => (w j).1
        tags := (List.range k).map fun j => decide (j < n)
        outClosed := false
        works := k } := by
  induction k with
  | zero =>
    simp [runCanonical, run, initState]
  | succ k ih =>
    have h2 : 2 * (k + 1) = 2 * k + 1 + 1 := by omega
    have hd : decide (0 < n - k) = decide (k < n) := by
      simp only [decide_eq_decide]; omega
    have hb : n - k - 1 = n - (k + 1) := by omega
    rw [runCanonical, h2, run, run, ← runCanonical, ih]
    simp [alwaysF, alwaysT, step, List.range_succ, hd, hb]

/-- A step of the serve machine depends on the work function only through
the value component of its result: the error component is discarded
(`val, _ := r.work()`). -/
theorem step_values_only (w w2 : Nat → WorkResult) (b1 b2 b3 b4 : Bool) (s : EngineState)
    (h : ∀ j, (w j).1 = (w2 j).1) :
    step w b1 b2 b3 b4 s = step w2 b1 b2 b3 b4 s := by
  obtain ⟨bl, ph, o, t, oc, wk⟩ := s
  cases ph <;> simp [step, h]

/-- Whole runs of the serve machine agree whenever the work functions agree
on values, whatever errors they report. -/
theorem run_values_only (w w2 : Nat → WorkResult) (st σ η ρ : Nat → Bool) (n : Nat)
    (h : ∀ j, (w j).1 = (w2 j).1) :
    ∀ fuel, run w st σ η ρ n fuel = run w2 st σ η ρ n fuel := by
  intro fuel
  induction fuel with
  | zero => rfl
  | succ fuel ih => rw [run, run, ih, step_values_only _ _ _ _ _ _ _ h]

/-- A step from a returned (done) state changes nothing: the goroutine has
exited. -/
theorem step_done_eq (w : Nat → WorkResult) (b1 b2 b3 b4 : Bool) (s : EngineState)
    (h : s.phase = .done) :
    step w b1 b2 b3 b4 s = s := by
  obtain ⟨bl, ph, o, t, oc, wk⟩ := s
  cases ph <;> simp_all [step]

/-- Stepping preserves the invariant that a returned goroutine has closed
its output channel (the deferred `close(values)` runs on return). -/
theorem step_preserves_closed (w : Nat → WorkResult) (b1 b2 b3 b4 : Bool) (s : EngineState)
    (h : s.phase = .done → s.outClosed = true) :
    (step w b1 b2 b3 b4 s).phase = .done → (step w b1 b2 b3 b4 s).outClosed = true := by
  obtain ⟨bl, ph, o, t, oc, wk⟩ := s
  cases ph <;> simp_all [step] <;> split_ifs <;> simp_all

/-- In every reachable state, once the loop has returned the output channel
is closed. -/
theorem run_done_closed (w : Nat → WorkResult) (st σ η ρ : Nat → Bool) (n : Nat) :
    ∀ fuel, (run w st σ η ρ n fuel).phase = .done →
      (run w st σ η ρ n fuel).outClosed = true := by
  intro fuel
  induction fuel with
  | zero => intro h; exact absurd h (by simp [run, initState])
  | succ fuel ih =>
    rw [run]
    exact step_preserves_closed _ _ _ _ _ _ ih

/-- Whenever cancellation has fired and the select race resolves in favour
of the stop case, the very next state is returned-and-closed, whatever the
engine was doing — even mid-send with a pending result. -/
theorem step_stop_closes (w : Nat → WorkResult) (b3 b4 : Bool) (s : EngineState)
    (h : s.phase = .done → s.outClosed = true) :
    (step w true true b3 b4 s).phase = .done ∧ (step w true true b3 b4 s).outClosed = true := by
  obtain ⟨bl, ph, o, t, oc, wk⟩ := s
  cases ph <;> simp_all [step]

/-- Once a step with cancellation fired and a stop-winning race has
occurred, every longer run is returned with the output channel closed. -/
theorem run_closes_after (w : Nat → WorkResult) (st σ η ρ : Nat → Bool) (n i : Nat)
    (hst : st i = true) (hσ : σ i = true) :
    ∀ fuel, i < fuel → (run w st σ η ρ n fuel).phase = .done ∧
      (run w st σ η ρ n fuel).outClosed = true := by
  intro fuel
  induction fuel with
  | zero => intro h; exact absurd h (by omega)
  | succ fuel ih =>
    intro h
    rw [run]
    by_cases hc : i < fuel
    · have hprev := ih hc
      rw [step_done_eq _ _ _ _ _ _ hprev.1]
      exact hprev
    · have hi : i = fuel := by omega
      subst hi
      rw [hst, hσ]
      exact step_stop_closes _ _ _ _ (run_done_closed _ _ _ _ _ _ i)

/-- A schedule on which cancellation fires from step 1 onward: the engine
completes one work cycle, then holds a pending result when stop arrives. -/
def stopAfterOne : Nat → Bool := fun i => decide (1 ≤ i)

end Engine

namespace Heartbeat

/-- Closed form of the `Beatn` goroutine's trace: `n` rendezvous beats, then
the pulse channel closes, then the done channel closes. -/
theorem beatnTrace_closed (n : Nat) :
    beatnTrace n = List.replicate n .beat ++ [.closeHb, .closeDone] := by
  induction n with
  | zero => rfl
  | succ n ih => rw [beatnTrace, ih, List.replicate_succ]; rfl

/-- A step of the `BeatUntil` goroutine from the returned state changes
nothing. -/
theorem buStep_closed_eq (b1 b2 b3 b4 : Bool) (s : BUState) (h : s.phase = .closed) :
    buStep b1 b2 b3 b4 s = s := by
  obtain ⟨ph, bs, hc⟩ := s
  cases ph <;> simp_all [buStep]

/-- Stepping preserves the invariant that once the `BeatUntil` loop has
returned, its output channel is closed (deferred `close(hb)`). -/
theorem buStep_preserves_closed (b1 b2 b3 b4 : Bool) (s : BUState)
    (h : s.phase = .closed → s.hbClosed = true) :
    (buStep b1 b2 b3 b4 s).phase = .closed → (buStep b1 b2 b3 b4 s).hbClosed = true := by
  obtain ⟨ph, bs, hc⟩ := s
  cases ph <;> simp_all [buStep] <;> split_ifs <;> simp_all

/-- In every reachable `BeatUntil` state, a returned loop has closed its
channel. -/
theorem buRun_closed_hb (st τ σ ρ : Nat → Bool) :
    ∀ i, (buRun st τ σ ρ i).phase = .closed → (buRun st τ σ ρ i).hbClosed = true := by
  intro i
  induction i with
  | zero => intro h; exact absurd h (by simp [buRun, buInit])
  | succ i ih =>
    rw [buRun]
    exact buStep_preserves_closed _ _ _ _ _ ih

/-- Only a completed delivery (a transition back to the select) changes the
beat count: a step that ends anywhere else — in particular one that observes
stop and returns — emits nothing. -/
theorem buStep_beats (b1 b2 b3 b4 : Bool) (s : BUState) :
    (buStep b1 b2 b3 b4 s).phase = .waiting ∨ (buStep b1 b2 b3 b4 s).beats = s.beats := by
  obtain ⟨ph, bs, hc⟩ := s
  cases ph <;> simp [buStep] <;> split_ifs <;> simp

/-- Once the `BeatUntil` loop has returned, the state is frozen: every later
run equals the state at the moment of return (no further beats, channel
stays closed). -/
theorem buRun_closed_frozen (st τ σ ρ : Nat → Bool) (i : Nat)
    (hc : (buRun st τ σ ρ i).phase = .closed) :
    ∀ j, i ≤ j → buRun st τ σ ρ j = buRun st τ σ ρ i := by
  intro j
  induction j with
  | zero =>
    intro h
    have hi : i = 0 := by omega
    subst hi
    rfl
  | succ j ih =>
    intro h
    by_cases hij : i ≤ j
    · have hj := ih hij
      rw [buRun, hj]
      exact buStep_closed_eq _ _ _ _ _ hc
    · have hi : i = j + 1 := by omega
      subst hi
      rfl

end Heartbeat

/-! # Theorems -/

/-- Claim C8: a configuration constructed with no options reports a pulse
interval of exactly 250 milliseconds, and the pulse-interval option
overrides this default: for every duration `d`, a configuration built with
the pulse-width option set to `d` reports `d`.  Shown for both config
package variants (`PulseWidth`/`WithPulseWidth` and
`PulseInterval`/`WithPulseInterval`). -/
theorem config_default_and_override (d : Duration) :
    ConfigW.PulseWidth (ConfigW.NewConfig []) = 250 * millisecond ∧
    ConfigW.PulseWidth (ConfigW.NewConfig [ConfigW.WithPulseWidth d]) = d ∧
    ConfigI.PulseInterval (ConfigI.NewConfig []) = 250 * millisecond ∧
    ConfigI.PulseInterval (ConfigI.NewConfig [ConfigI.WithPulseInterval d]) = d := by
  refine ⟨rfl, rfl, rfl, rfl⟩

/-- Claim C9: whenever the configuration's pulse-interval accessor reports
zero, the v4 engine's `getDuration` yields the non-zero system default of
100 milliseconds rather than the literal zero, and `getTicker` binds its
lazily created pulse source to that non-zero duration. -/
theorem zero_interval_falls_back (cfg : ConfigI.config)
    (h : ConfigI.PulseInterval cfg = 0) :
    V4Main.getDuration cfg = 100 * millisecond ∧
    V4Main.getDuration cfg ≠ 0 ∧
    V4Main.getTickerDuration none cfg = some (100 * millisecond) := by
  unfold V4Main.getTickerDuration V4Main.getDuration
  rw [if_pos h]
  refine ⟨rfl, by decide, rfl⟩

/-- Witness for C9 at the concrete configuration built with
`WithPulseInterval 0`. -/
theorem zero_interval_falls_back_witness :
    ConfigI.PulseInterval (ConfigI.NewConfig [ConfigI.WithPulseInterval 0]) = 0 ∧
    (V4Main.getDuration (ConfigI.NewConfig [ConfigI.WithPulseInterval 0]) = 100 * millisecond ∧
      V4Main.getDuration (ConfigI.NewConfig [ConfigI.WithPulseInterval 0]) ≠ 0 ∧
      V4Main.getTickerDuration none (ConfigI.NewConfig [ConfigI.WithPulseInterval 0]) =
        some (100 * millisecond)) :=
  ⟨rfl, zero_interval_falls_back (ConfigI.NewConfig [ConfigI.WithPulseInterval 0]) rfl⟩

/-- Claim C10: both built-in work functions never fail — `ones.work` returns
exactly `(1, nil)` on every invocation, and `randInt.work` returns a nil
error together with some integer (the drawn random value) for every draw
`r` of the underlying generator. -/
theorem work_functions_never_fail (r : Int) :
    V7.ones.work = (1, none) ∧
    (V7.randInt.work r).2 = none ∧
    (V7.randInt.work r).1 = r := by
  refine ⟨rfl, rfl, rfl⟩

/-- Claim C4: construction fails exactly when the required dependency is
absent — a nil heartbeat channel (`NewRandIntStreamf`, v6 and v7) or a nil
config (`NewRandIntStream` v6) yields an error, as does the v4 constructor
with a nil config and no ticker option; while a non-nil config alone, or a
non-nil explicit pulse channel alone, succeeds with a nil error in every
variant. -/
theorem constructor_validation (c : Chan) (cfg : ConfigW.config) :
    V6.NewRandIntStreamf none = .error "cannot provide a nil channel to constructor" ∧
    V6.NewRandIntStream none = .error "cannot provide a nil config to constructor" ∧
    V7.NewResultStreamf none = .error "cannot provide a nil channel to constructor" ∧
    V4.NewRandIntStream none [] = .error "must provide either a config or a ticker" ∧
    V6.NewRandIntStream (some cfg) = .ok { cfg := some cfg, hb := none } ∧
    V6.NewRandIntStreamf (some c) = .ok { cfg := none, hb := some c } ∧
    V7.NewResultStreamf (some c) = .ok { cfg := none, hb := some c, wk := .randIntTag } ∧
    V4.NewRandIntStream (some cfg) [] = .ok { cfg := some cfg, pulse := none } ∧
    V4.NewRandIntStream none [V4.WithHeartbeat c] = .ok { cfg := none, pulse := some c } := by
  refine ⟨rfl, rfl, rfl, rfl, rfl, rfl, rfl, ?_, ?_⟩ <;>
    simp [V4.NewRandIntStream, V4.newOption, V4.WithHeartbeat]

/-- Counterexample to claim C7: the claim asserts that a lazily created
`BeatUntil` source is stored in the engine so that every later resolution
returns that same source, citing v4's `getHeartbeat` among its sources —
but v4's `getHeartbeat` returns the freshly created channel without
assigning it to `r.pulse`.  Concretely, for a v4 engine with a config and
no explicit pulse, two successive resolutions against the same stop signal
(id 7, arbitrary) return distinct channels (ids 0 and 1) and leave the
engine's pulse field nil. -/
theorem lazy_resolution_counterexample :
    (V4.getHeartbeat { cfg := some ConfigW.newConfig, pulse := none } 7 0).1 = 0 ∧
    (V4.getHeartbeat
      (V4.getHeartbeat { cfg := some ConfigW.newConfig, pulse := none } 7 0).2.1 7
      (V4.getHeartbeat { cfg := some ConfigW.newConfig, pulse := none } 7 0).2.2.1).1 = 1 ∧
    (0 : Chan) ≠ 1 ∧
    (V4.getHeartbeat { cfg := some ConfigW.newConfig, pulse := none } 7 0).2.1.pulse = none := by
  refine ⟨rfl, rfl, by decide, rfl⟩

/-- Claim C7 as amended: every engine resolves its pulse source lazily — no
source exists at construction (the constructors store exactly the supplied
channel or none, allocating nothing and calling `BeatUntil` on nothing) and
an explicit channel takes priority over any configuration (resolution
returns it unchanged, making no `BeatUntil` call).  When no explicit
channel was supplied, resolution creates a `BeatUntil` source bound to the
configured interval (`r.PulseWidth()`) and to the start's stop signal.  The
v6 and v7 engines store that source, so every later resolution returns the
same source without another `BeatUntil` call; the v4 engine does not store
it, and instead makes a fresh `BeatUntil` call — each likewise bound to the
configured interval and the stop signal — at every resolution that finds no
explicit channel. -/
theorem lazy_resolution_amended (c stop fresh : Chan) (ocfg : Option ConfigW.config)
    (cfg : ConfigW.config) :
    V6.NewRandIntStreamf (some c) = .ok { cfg := none, hb := some c } ∧
    V6.NewRandIntStream (some cfg) = .ok { cfg := some cfg, hb := none } ∧
    V6.getHeartbeat { cfg := ocfg, hb := some c } stop fresh =
      (c, { cfg := ocfg, hb := some c }, fresh, none) ∧
    V6.getHeartbeat { cfg := some cfg, hb := none } stop fresh =
      (fresh, { cfg := some cfg, hb := some fresh }, fresh + 1,
        some { stop := stop, width := some (ConfigW.PulseWidth cfg), ch := fresh }) ∧
    V6.getHeartbeat { cfg := some cfg, hb := some fresh } stop (fresh + 1) =
      (fresh, { cfg := some cfg, hb := some fresh }, fresh + 1, none) ∧
    V7.getHeartbeat { cfg := ocfg, hb := some c, wk := .onesTag } stop fresh =
      (c, { cfg := ocfg, hb := some c, wk := .onesTag }, fresh, none) ∧
    V7.getHeartbeat { cfg := some cfg, hb := none, wk := .onesTag } stop fresh =
      (fresh, { cfg := some cfg, hb := some fresh, wk := .onesTag }, fresh + 1,
        some { stop := stop, width := some (ConfigW.PulseWidth cfg), ch := fresh }) ∧
    V7.getHeartbeat { cfg := some cfg, hb := some fresh, wk := .onesTag } stop (fresh + 1) =
      (fresh, { cfg := some cfg, hb := some fresh, wk := .onesTag }, fresh + 1, none) ∧
    V4.getHeartbeat { cfg := ocfg, pulse := some c } stop fresh =
      (c, { cfg := ocfg, pulse := some c }, fresh, none) ∧
    V4.getHeartbeat { cfg := some cfg, pulse := none } stop fresh =
      (fresh, { cfg := some cfg, pulse := none }, fresh + 1,
        some { stop := stop, width := some (ConfigW.PulseWidth cfg), ch := fresh }) ∧
    V4.getHeartbeat { cfg := some cfg, pulse := none } stop (fresh + 1) =
      (fresh + 1, { cfg := some cfg, pulse := none }, fresh + 1 + 1,
        some { stop := stop, width := some (ConfigW.PulseWidth cfg), ch := fresh + 1 }) := by
  refine ⟨rfl, rfl, rfl, rfl, rfl, rfl, rfl, rfl, rfl, rfl, rfl⟩

/-- Counterexample to claim C1: with `Beatn(5)` and the constant work
function `ones`, consumed without cancellation, the claim says the full
output sequence is `[1,1,1,1,1]` followed by stream closure.  In fact after
the five pulses the pulse channel is closed, a Go receive from a closed
channel succeeds immediately, so the serve loop keeps invoking the work
function: after 14 scheduler steps the engine has emitted seven results —
more than five — and the output stream is still open. -/
theorem count_claim_counterexample :
    (Engine.runCanonical Engine.onesW 5 14).out = [1, 1, 1, 1, 1, 1, 1] ∧
    (Engine.runCanonical Engine.onesW 5 14).outClosed = false := by
  refine ⟨by decide, by decide⟩

/-- Claim C1 as amended: a stream engine wired to the pulse channel of
`Beatn(n)`, started and consumed without cancellation, emits its results in
pulse order — after `k` full work cycles the outputs are the first `k` work
values in invocation order, and the `j`-th result was triggered by a real
pulse exactly when `j < n` — but the output is not limited to `n` results
and the stream never closes: once the pulse channel closes, receives from
it keep succeeding, so the engine keeps emitting (with `Beatn(5)` and
`ones`, the first five outputs are `[1,1,1,1,1]`, and more follow instead
of closure). -/
theorem count_claim_amended (n k : Nat) (w : Nat → WorkResult) :
    (Engine.runCanonical w n (2 * k)).out = (List.range k).map (fun j => (w j).1) ∧
    (Engine.runCanonical w n (2 * k)).tags = (List.range k).map (fun j => decide (j < n)) ∧
    (Engine.runCanonical w n (2 * k)).outClosed = false ∧
    (Engine.runCanonical Engine.onesW 5 10).out = [1, 1, 1, 1, 1] := by
  rw [Engine.runCanonical_closed_form]
  exact ⟨rfl, rfl, rfl, by decide⟩

/-- Counterexample to claim C2: the claim says that if the pulse source
channel itself terminates/closes, the output stream also closes.  With
`Beatn(0)` the pulse channel is closed from the start and cancellation never
fires; after 20 scheduler steps the engine has emitted ten results from
closed-channel receives (all tagged as not coming from a real pulse) and
the output stream is still open. -/
theorem eventual_close_counterexample :
    (Engine.runCanonical Engine.onesW 0 20).outClosed = false ∧
    (Engine.runCanonical Engine.onesW 0 20).out.length = 10 ∧
    (Engine.runCanonical Engine.onesW 0 20).tags = List.replicate 10 false := by
  refine ⟨by decide, by decide, by decide⟩

/-- Claim C2 as amended: if cancellation fires then the engine loop
terminates and closes the output stream as soon as the select race resolves
in favour of the stop case — under any consumer behaviour `ρ` (including a
slow or absent consumer while a result is pending delivery; the pending
result may be dropped) and any producer schedule `η`.  The clause about the
pulse source closing is dropped: a closed pulse channel does not close the
output stream (see the counterexample), which therefore closes only through
cancellation. -/
theorem cancellation_closes (w : Nat → WorkResult) (st σ η ρ : Nat → Bool) (n fuel : Nat)
    (h : ∃ i, i < fuel ∧ st i = true ∧ σ i = true) :
    (Engine.run w st σ η ρ n fuel).phase = .done ∧
    (Engine.run w st σ η ρ n fuel).outClosed = true := by
  obtain ⟨i, hif, hst, hσ⟩ := h
  exact Engine.run_closes_after w st σ η ρ n i hst hσ fuel hif

/-- Witness for C2 as amended: with `Beatn(1)`, cancellation firing from
step 1, and stop winning every race, the engine completes one work cycle,
holds the pending result when stop arrives, and the run of length 2 is
returned and closed with the pending result dropped (empty output). -/
theorem cancellation_closes_witness :
    (∃ i, i < 2 ∧ Engine.stopAfterOne i = true ∧ Engine.alwaysT i = true) ∧
    ((Engine.run Engine.onesW Engine.stopAfterOne Engine.alwaysT Engine.alwaysT
        Engine.alwaysT 1 2).phase = .done ∧
      (Engine.run Engine.onesW Engine.stopAfterOne Engine.alwaysT Engine.alwaysT
        Engine.alwaysT 1 2).outClosed = true) ∧
    (Engine.run Engine.onesW Engine.stopAfterOne Engine.alwaysT Engine.alwaysT
      Engine.alwaysT 1 2).out = [] :=
  ⟨⟨1, by decide⟩,
    cancellation_closes Engine.onesW Engine.stopAfterOne Engine.alwaysT Engine.alwaysT
      Engine.alwaysT 1 2 ⟨1, by decide⟩,
    by decide⟩

/-- Claim C3: the channel returned by `BeatUntil(stop, d)` never delivers a
Beat after the stop channel is observed closed — once the loop observes
stop (reaches the returned state), every later state is identical (the beat
count is frozen), the returned channel is closed, and the loop has exited;
moreover no step that ends outside the select (in particular the one that
observes stop and returns) emits a beat, so no final partial pulse is
emitted.  Quantified over all stop/timer/race/consumer schedules. -/
theorem stop_halts_beatuntil (st τ σ ρ : Nat → Bool) (i j : Nat) (hij : i ≤ j)
    (hc : (Heartbeat.buRun st τ σ ρ i).phase = .closed) :
    Heartbeat.buRun st τ σ ρ j = Heartbeat.buRun st τ σ ρ i ∧
    (Heartbeat.buRun st τ σ ρ i).hbClosed = true ∧
    (∀ (b1 b2 b3 b4 : Bool) (s : Heartbeat.BUState),
      (Heartbeat.buStep b1 b2 b3 b4 s).phase ≠ .waiting →
        (Heartbeat.buStep b1 b2 b3 b4 s).beats = s.beats) := by
  refine ⟨Heartbeat.buRun_closed_frozen st τ σ ρ i hc j hij,
    Heartbeat.buRun_closed_hb st τ σ ρ i hc, ?_⟩
  intro b1 b2 b3 b4 s hw
  rcases Heartbeat.buStep_beats b1 b2 b3 b4 s with h | h
  · exact absurd h hw
  · exact h

/-- Witness for C3: with stop closed from the start and the timer never
firing, the loop observes stop at its first step; the state at step 3
equals the state at step 1, the channel is closed, and no beats were
delivered. -/
theorem stop_halts_beatuntil_witness :
    ((1 : Nat) ≤ 3 ∧
      (Heartbeat.buRun Engine.alwaysT Engine.alwaysF Engine.alwaysF Engine.alwaysT 1).phase =
        .closed) ∧
    (Heartbeat.buRun Engine.alwaysT Engine.alwaysF Engine.alwaysF Engine.alwaysT 3 =
        Heartbeat.buRun Engine.alwaysT Engine.alwaysF Engine.alwaysF Engine.alwaysT 1 ∧
      (Heartbeat.buRun Engine.alwaysT Engine.alwaysF Engine.alwaysF Engine.alwaysT 1).hbClosed =
        true ∧
      (∀ (b1 b2 b3 b4 : Bool) (s : Heartbeat.BUState),
        (Heartbeat.buStep b1 b2 b3 b4 s).phase ≠ .waiting →
          (Heartbeat.buStep b1 b2 b3 b4 s).beats = s.beats)) ∧
    (Heartbeat.buRun Engine.alwaysT Engine.alwaysF Engine.alwaysF Engine.alwaysT 1).beats = 0 :=
  ⟨⟨by decide, by decide⟩,
    stop_halts_beatuntil Engine.alwaysT Engine.alwaysF Engine.alwaysF Engine.alwaysT 1 3
      (by decide) (by decide),
    by decide⟩

/-- Claim C5: when the work function returns a value together with a
non-nil error, the engine forwards the value on the output stream
regardless of the failure — two work functions with the same values and
arbitrarily different errors induce identical runs under every schedule (the
error is discarded and never reaches the output stream), and under the
canonical schedule an always-failing work function still has all its values
delivered with the stream left running. -/
theorem work_error_discarded (v : Nat → Int) (e e2 : Nat → Option String)
    (st σ η ρ : Nat → Bool) (n fuel : Nat) :
    Engine.run (fun j => (v j, e j)) st σ η ρ n fuel =
      Engine.run (fun j => (v j, e2 j)) st σ η ρ n fuel ∧
    (Engine.runCanonical (fun j => (v j, e j)) n (2 * fuel)).out = (List.range fuel).map v ∧
    (Engine.runCanonical (fun j => (v j, e j)) n (2 * fuel)).outClosed = false := by
  refine ⟨Engine.run_values_only (fun j => (v j, e j)) (fun j => (v j, e2 j)) st σ η ρ n
    (fun j => rfl) fuel, ?_, ?_⟩ <;> rw [Engine.runCanonical_closed_form]

/-- Claim C6: `Beatn(n)` delivers exactly `n` Beats on its pulse channel —
its goroutine's trace is `n` rendezvous deliveries (no timer event exists in
the loop), after which the pulse channel closes and then the separate done
channel closes (so the done channel closes no earlier than the pulse
channel); and each beat is consumed one per engine work cycle, `n - k` beats
remaining unsent after `k` cycles. -/
theorem beatn_exactly_n (n k : Nat) (w : Nat → WorkResult) :
    Heartbeat.beatnTrace n =
      List.replicate n .beat ++ [.closeHb, .closeDone] ∧
    (Heartbeat.beatnTrace n).count .beat = n ∧
    (Engine.runCanonical w n (2 * k)).beatsLeft = n - k := by
  refine ⟨Heartbeat.beatnTrace_closed n, ?_, by rw [Engine.runCanonical_closed_form]⟩
  rw [Heartbeat.beatnTrace_closed n]
  simp [List.count_append]

end Depinject
